import Mathlib

/-!
Verification of the ragtrace core (RAG observability store) against its
natural-language specification.

The development shallowly embeds the three core modules:

* `src/core/cost.py`    — price table, token counting, cost formulas;
* `src/core/capture.py` — the per-session capture aggregator;
* `src/core/storage.py` — the SQLite-backed event store.

Python floats are modelled as exact rationals (`ℚ`), Python `int` as `ℤ`
(or `ℕ` where the source can only produce non-negative values, e.g. token
counts returned by a tokenizer), `datetime` values as abstract clock
readings (`ℕ`), and fallible code as `Except String _` / `Option _`.
The external `tiktoken` tokenizer is modelled as an oracle
(`String → Option ℕ`, `none` = the encode call raised), since its
behaviour is not part of this repository.
-/

namespace RagTrace

/-! ### Cost engine (`src/core/cost.py`) -/

/-- One row of the static price table: USD per 1K tokens.  Embedding-model
rows define no output rate (`output = none`), mirroring the Python dicts
that carry only an `"input"` key. -/
structure Pricing where
  input : ℚ
  output : Option ℚ
deriving DecidableEq

/-- The literal `PRICING` table from `src/core/cost.py`. -/
def PRICING : List (String × Pricing) :=
  [ ("gpt-4", ⟨0.03, some 0.06⟩),
    ("gpt-4-turbo-preview", ⟨0.01, some 0.03⟩),
    ("gpt-4-32k", ⟨0.06, some 0.12⟩),
    ("gpt-3.5-turbo", ⟨0.0015, some 0.002⟩),
    ("gpt-3.5-turbo-16k", ⟨0.003, some 0.004⟩),
    ("text-embedding-ada-002", ⟨0.0001, none⟩),
    ("text-embedding-3-small", ⟨0.00002, none⟩),
    ("text-embedding-3-large", ⟨0.00013, none⟩) ]

/-- Embeds `DEFAULT_PRICING` from `src/core/cost.py` (GPT-3.5 baseline). -/
def DEFAULT_PRICING : Pricing := ⟨0.0015, some 0.002⟩

/-- Embeds `PRICING.get(model)`: exact-match dictionary lookup (no default). -/
def pricingGet (model : String) : Option Pricing :=
  (PRICING.find? (fun p => p.1 == model)).map (fun p => p.2)

/-- Embeds `CostCalculator.get_pricing_info`: `PRICING.get(model, DEFAULT_PRICING)`. -/
def get_pricing_info (model : String) : Pricing :=
  (pricingGet model).getD DEFAULT_PRICING

/-- Embeds `CostCalculator.calculate_embedding_cost`:
`(num_tokens / 1000) * PRICING.get(model, {"input": 0.0001})["input"]`. -/
def calculate_embedding_cost (num_tokens : ℕ) (model : String) : ℚ :=
  let pricing := (pricingGet model).getD ⟨0.0001, none⟩
  (num_tokens : ℚ) / 1000 * pricing.input

/-- Embeds `CostCalculator.calculate_generation_cost`: returns
`(input_cost, output_cost, total_cost)`; a model entry with no output rate
falls back to its input rate. -/
def calculate_generation_cost (input_tokens output_tokens : ℤ) (model : String) :
    ℚ × ℚ × ℚ :=
  let pricing := (pricingGet model).getD DEFAULT_PRICING
  let input_cost_per_1k := pricing.input
  let output_cost_per_1k := pricing.output.getD pricing.input
  let input_cost := (input_tokens : ℚ) / 1000 * input_cost_per_1k
  let output_cost := (output_tokens : ℚ) / 1000 * output_cost_per_1k
  (input_cost, output_cost, input_cost + output_cost)

/-- An external tokenizer, as an oracle: `some n` = the encode call
returned `n` tokens, `none` = it raised. -/
def Tokenizer : Type := String → Option ℕ

/-- The external `tiktoken` registry: which models have a model-specific
encoding, plus the shared `cl100k_base` fallback encoding. -/
structure TokEnv where
  encoding_for_model : String → Option Tokenizer
  cl100k_base : Tokenizer

/-- Embeds `CostCalculator.get_tokenizer`: try `tiktoken.encoding_for_model`;
on `KeyError` fall back to `cl100k_base`. -/
def get_tokenizer (env : TokEnv) (model : String) : Tokenizer :=
  (env.encoding_for_model model).getD env.cl100k_base

/-- Embeds `CostCalculator.count_tokens`: `0` for falsy text without touching a
tokenizer; otherwise the selected tokenizer's count, or `len(text) // 4`
if the try-block raised. -/
def count_tokens (env : TokEnv) (text : String) (model : String) : ℕ :=
  if text = "" then 0
  else
    match get_tokenizer env model text with
    | some n => n
    | none => text.length / 4

/-! ### Data model (`src/core/models.py`), fields the core logic reads -/

/-- Embeds `ChunkMetadata`. -/
structure ChunkMetadata where
  source : Option String
  page : Option ℤ
  score : ℚ
  document_id : Option String
deriving DecidableEq

/-- Embeds `RetrievedChunk`. -/
structure RetrievedChunk where
  text : String
  metadata : ChunkMetadata
deriving DecidableEq

/-- Embeds `RetrievalEvent` (timestamps are abstract clock readings). -/
structure RetrievalEventR where
  session_id : String
  timestamp : ℕ
  chunks : List RetrievedChunk
  duration_ms : ℤ
  embedding_tokens : Option ℕ
  embedding_cost : ℚ
  retrieval_method : Option String
deriving DecidableEq

/-- Embeds `PromptEvent`. -/
structure PromptEventR where
  session_id : String
  timestamp : ℕ
  prompt : String
  token_count : ℕ
  template_name : Option String
deriving DecidableEq

/-- Embeds `GenerationEvent`.  `input_tokens`/`output_tokens` are Python `int`s
supplied by the caller, hence `ℤ`. -/
structure GenerationEventR where
  session_id : String
  timestamp : ℕ
  response : String
  model : String
  input_tokens : ℤ
  output_tokens : ℤ
  cost : ℚ
  duration_ms : ℤ
  temperature : Option ℚ
deriving DecidableEq

/-- Embeds `RagSession` (also the shape of a row of the `sessions` table). -/
structure RagSession where
  id : String
  query : String
  created_at : ℕ
  completed_at : Option ℕ
  total_cost : Option ℚ
  total_duration_ms : Option ℤ
  model : Option String
deriving DecidableEq

/-- Embeds `CostBreakdown`. -/
structure CostBreakdown where
  session_id : String
  embedding_cost : ℚ
  input_cost : ℚ
  output_cost : ℚ
  total_cost : ℚ
deriving DecidableEq

/-! ### Capture aggregator (`src/core/capture.py`) -/

/-- Embeds `CaptureSession`'s mutable state: the three at-most-one event slots. -/
structure CaptureSession where
  session_id : String
  query : String
  created_at : ℕ
  retrieval_event : Option RetrievalEventR
  prompt_event : Option PromptEventR
  generation_event : Option GenerationEventR

/-- Embeds `CaptureSession.__init__`: `created_at = datetime.utcnow()`, all event
slots empty.  The clock reading is passed explicitly. -/
def CaptureSession.init (session_id query : String) (now : ℕ) : CaptureSession :=
  ⟨session_id, query, now, none, none, none⟩

/-- Embeds `CaptureSession.capture_retrieval`.  The duck-typed document-to-chunk
extraction is a boundary adapter; the aggregator logic receives the
resolved chunk list.  Embedding cost is computed from the session's query
text, and the slot is overwritten (last-write-wins). -/
def capture_retrieval (env : TokEnv) (cs : CaptureSession)
    (chunks : List RetrievedChunk) (duration_ms : ℤ)
    (embedding_model : String) (now : ℕ) : CaptureSession :=
  let query_tokens := count_tokens env cs.query "gpt-3.5-turbo"
  let embedding_cost := calculate_embedding_cost query_tokens embedding_model
  { cs with
      retrieval_event := some
        ⟨cs.session_id, now, chunks, duration_ms, some query_tokens,
          embedding_cost, some "vector_search"⟩ }

/-- Embeds `CaptureSession.capture_prompt` (overwrite semantics). -/
def capture_prompt (env : TokEnv) (cs : CaptureSession)
    (prompt : String) (model : String) (template_name : Option String)
    (now : ℕ) : CaptureSession :=
  let token_count := count_tokens env prompt model
  { cs with
      prompt_event := some
        ⟨cs.session_id, now, prompt, token_count, template_name⟩ }

/-- Embeds `CaptureSession.capture_generation`: the stored `cost` is the total
from `calculate_generation_cost` (overwrite semantics). -/
def capture_generation (cs : CaptureSession)
    (response model : String) (input_tokens output_tokens : ℤ)
    (duration_ms : ℤ) (temperature : Option ℚ) (now : ℕ) : CaptureSession :=
  let costs := calculate_generation_cost input_tokens output_tokens model
  { cs with
      generation_event := some
        ⟨cs.session_id, now, response, model, input_tokens, output_tokens,
          costs.2.2, duration_ms, temperature⟩ }

/-- Embeds `CaptureSession.get_total_duration`: `None` unless both the retrieval
and the generation event are present, else the sum of their durations. -/
def get_total_duration (cs : CaptureSession) : Option ℤ :=
  if cs.retrieval_event.isSome ∧ cs.generation_event.isSome then
    some ((cs.retrieval_event.elim 0 (fun r => r.duration_ms)) +
          (cs.generation_event.elim 0 (fun g => g.duration_ms)))
  else none

/-- Embeds `CaptureSession.get_total_cost`: `0.0` plus whichever of the embedding
cost and the generation cost is present. -/
def get_total_cost (cs : CaptureSession) : ℚ :=
  (cs.retrieval_event.elim 0 (fun r => r.embedding_cost)) +
  (cs.generation_event.elim 0 (fun g => g.cost))

/-- Embeds `CaptureSession.to_session` (`finalizeAsSession`):
`completed_at = utcnow()` (its clock reading passed explicitly),
`model` from the generation event if present. -/
def to_session (cs : CaptureSession) (now : ℕ) : RagSession :=
  ⟨cs.session_id, cs.query, cs.created_at, some now,
    some (get_total_cost cs), get_total_duration cs,
    cs.generation_event.map (fun g => g.model)⟩

/-- One call against the aggregator, with its argument values (each call
records the clock reading at which it happened). -/
inductive CaptureCall where
  | retrievalC (chunks : List RetrievedChunk) (duration_ms : ℤ)
      (embedding_model : String) (now : ℕ)
  | promptC (prompt : String) (model : String)
      (template_name : Option String) (now : ℕ)
  | generationC (response model : String) (input_tokens output_tokens : ℤ)
      (duration_ms : ℤ) (temperature : Option ℚ) (now : ℕ)

/-- Apply one capture call to the aggregator state. -/
def applyCall (env : TokEnv) (cs : CaptureSession) : CaptureCall → CaptureSession
  | .retrievalC chunks d m now => capture_retrieval env cs chunks d m now
  | .promptC p m t now => capture_prompt env cs p m t now
  | .generationC r m i o d tp now => capture_generation cs r m i o d tp now

/-- Apply a whole sequence of capture calls. -/
def applyTrace (env : TokEnv) (cs : CaptureSession)
    (trace : List CaptureCall) : CaptureSession :=
  trace.foldl (applyCall env) cs

/-! ### Event store (`src/core/storage.py`)

The schema declares `events.session_id REFERENCES sessions(id) ON DELETE
CASCADE` and `snapshots.session_id ... ON DELETE SET NULL`, but the
connection is opened by `_init_db` without ever issuing
`PRAGMA foreign_keys = ON`; SQLite keeps foreign-key enforcement OFF by
default, so both referential actions are inert at runtime.  The embedding
therefore models the tables as plain row lists and `delete_session` as
touching only the `sessions` table, which is what the program does. -/

/-- The JSON `data` column of an `events` row, after parsing with the
event class selected by the row's `event_type` discriminator. -/
inductive EvData where
  | retrievalD (e : RetrievalEventR)
  | promptD (e : PromptEventR)
  | generationD (e : GenerationEventR)
deriving DecidableEq

/-- A row of the `events` table.  `event_type` is a free TEXT column;
nothing in the schema forces it to match the shape of `data`. -/
structure StoredEventR where
  id : String
  session_id : String
  event_type : String
  timestamp : ℕ
  data : EvData
deriving DecidableEq

/-- A row of the `snapshots` table. -/
structure SnapshotR where
  id : String
  session_id : String
  query : String
  chunks : List RetrievedChunk
  answer : String
  cost : ℚ
  timestamp : ℕ
  tags : List String
  model : Option String
deriving DecidableEq

/-- The persisted state: the three tables, rows in insertion order. -/
structure DB where
  sessions : List RagSession
  events : List StoredEventR
  snapshots : List SnapshotR
deriving DecidableEq

/-- Embeds `Database.get_session`: `SELECT * FROM sessions WHERE id = ?`. -/
def get_session (db : DB) (session_id : String) : Option RagSession :=
  db.sessions.find? (fun s => s.id == session_id)

/-- Embeds `Database.delete_session`: `DELETE FROM sessions WHERE id = ?`, then
`rowcount > 0`.  With foreign-key enforcement off (no PRAGMA issued),
the declared cascades do not fire: the `events` and `snapshots` tables
are untouched. -/
def delete_session (db : DB) (session_id : String) : DB × Bool :=
  ({ db with sessions := db.sessions.filter (fun s => ¬ s.id == session_id) },
   db.sessions.any (fun s => s.id == session_id))

/-- The keyword arguments of `Database.update_session`, restricted to the
allow-listed fields; the code drops any other key, so a dict naming only
unlisted keys is the all-`none` record.  Each present field carries the
new column value (itself optional: SQL NULL). -/
structure SessionUpdates where
  completed_at : Option (Option ℕ)
  total_cost : Option (Option ℚ)
  total_duration_ms : Option (Option ℤ)
  model : Option (Option String)
deriving DecidableEq

/-- The dynamic `UPDATE sessions SET ... WHERE id = ?` row transformer:
overwrite exactly the named columns. -/
def applyUpdates (u : SessionUpdates) (s : RagSession) : RagSession :=
  { s with
      completed_at := u.completed_at.getD s.completed_at,
      total_cost := u.total_cost.getD s.total_cost,
      total_duration_ms := u.total_duration_ms.getD s.total_duration_ms,
      model := u.model.getD s.model }

/-- Embeds `Database.update_session`: filter to the allow-list; if no field
survives return `False` (without running any SQL); otherwise run the
UPDATE on the matching row and return `rowcount > 0`. -/
def update_session (db : DB) (session_id : String) (u : SessionUpdates) :
    DB × Bool :=
  if u.completed_at = none ∧ u.total_cost = none ∧
      u.total_duration_ms = none ∧ u.model = none then
    (db, false)
  else
    ({ db with
        sessions := db.sessions.map
          (fun s => if s.id == session_id then applyUpdates u s else s) },
     db.sessions.any (fun s => s.id == session_id))

/-- Embeds `Database.store_event`: plain INSERT (append). -/
def store_event (db : DB) (e : StoredEventR) : DB :=
  { db with events := db.events ++ [e] }

/-- The three-slot dictionary built by `Database.get_events`. -/
structure EventSlots where
  retrieval : Option RetrievalEventR
  prompt : Option PromptEventR
  generation : Option GenerationEventR
deriving DecidableEq

/-- The `ORDER BY timestamp ASC` relation on event rows. -/
def tsLE (a b : StoredEventR) : Prop := a.timestamp ≤ b.timestamp

instance : DecidableRel tsLE := fun a b => Nat.decLe a.timestamp b.timestamp

instance : IsTotal StoredEventR tsLE := ⟨fun a b => Nat.le_total a.timestamp b.timestamp⟩

instance : IsTrans StoredEventR tsLE := ⟨fun _ _ _ => Nat.le_trans⟩

/-- The SQL `ORDER BY timestamp ASC` result: some permutation of the rows
that is sorted by timestamp. -/
def sortByTimestamp (l : List StoredEventR) : List StoredEventR :=
  l.insertionSort tsLE

/-- The loop body of `Database.get_events`: walk the ordered rows and
overwrite the slot named by each row's `event_type` with the row's parsed
payload; a row whose payload does not parse as the event class selected
by its type tag raises (pydantic validation error); a row with an unknown
`event_type` matches no branch and is silently skipped. -/
def fillSlots : List StoredEventR → EventSlots → Except String EventSlots
  | [], acc => .ok acc
  | r :: rest, acc =>
    if r.event_type == "retrieval" then
      match r.data with
      | .retrievalD e => fillSlots rest { acc with retrieval := some e }
      | _ => .error "validation error"
    else if r.event_type == "prompt" then
      match r.data with
      | .promptD e => fillSlots rest { acc with prompt := some e }
      | _ => .error "validation error"
    else if r.event_type == "generation" then
      match r.data with
      | .generationD e => fillSlots rest { acc with generation := some e }
      | _ => .error "validation error"
    else fillSlots rest acc

/-- Embeds `Database.get_events`: select the session's rows ordered by timestamp
ascending, then fill the three slots. -/
def get_events (db : DB) (session_id : String) : Except String EventSlots :=
  fillSlots (sortByTimestamp (db.events.filter (fun r => r.session_id == session_id)))
    ⟨none, none, none⟩

/-- Embeds `Database.get_cost_breakdown`.  The embedding share is the retrieval
event's cost (else 0).  A generation event's stored total cost is split
by the truthiness test `if input_tokens and output_tokens:` — i.e. both
counts nonzero — proportionally to token counts (a zero token sum under
that test would raise `ZeroDivisionError`), else 50/50.  The total is the
sum of the three shares. -/
def get_cost_breakdown (db : DB) (session_id : String) :
    Except String CostBreakdown :=
  match get_events db session_id with
  | .error e => .error e
  | .ok events =>
    let embedding_cost : ℚ :=
      match events.retrieval with
      | some r => r.embedding_cost
      | none => 0
    let split : Except String (ℚ × ℚ) :=
      match events.generation with
      | some g =>
        let total_gen_cost := g.cost
        if g.input_tokens ≠ 0 ∧ g.output_tokens ≠ 0 then
          let total_tokens := g.input_tokens + g.output_tokens
          if total_tokens = 0 then .error "ZeroDivisionError"
          else
            .ok (total_gen_cost * ((g.input_tokens : ℚ) / (total_tokens : ℚ)),
                 total_gen_cost * ((g.output_tokens : ℚ) / (total_tokens : ℚ)))
        else .ok (total_gen_cost / 2, total_gen_cost / 2)
      | none => .ok (0, 0)
    match split with
    | .error e => .error e
    | .ok (input_cost, output_cost) =>
      .ok ⟨session_id, embedding_cost, input_cost, output_cost,
            embedding_cost + input_cost + output_cost⟩

/-- Embeds `SessionDetail`. -/
structure SessionDetail where
  session : RagSession
  retrieval : Option RetrievalEventR
  prompt : Option PromptEventR
  generation : Option GenerationEventR
  cost_breakdown : Option CostBreakdown
deriving DecidableEq

/-- Embeds `Database.get_session_detail`: `None` if the session row is absent,
else the session joined with the event slots and a freshly recomputed
cost breakdown. -/
def get_session_detail (db : DB) (session_id : String) :
    Except String (Option SessionDetail) :=
  match get_session db session_id with
  | none => .ok none
  | some session =>
    match get_events db session_id with
    | .error e => .error e
    | .ok events =>
      match get_cost_breakdown db session_id with
      | .error e => .error e
      | .ok bd =>
        .ok (some ⟨session, events.retrieval, events.prompt,
              events.generation, some bd⟩)

/-- Embeds `Database.get_snapshot`: `SELECT * FROM snapshots WHERE id = ?`. -/
def get_snapshot (db : DB) (snapshot_id : String) : Option SnapshotR :=
  db.snapshots.find? (fun s => s.id == snapshot_id)

/-! ### Derived helpers used in theorem statements -/

/-- The embedding share of a cost breakdown, read off the event slots:
the retrieval event's `embedding_cost`, else `0`. -/
def slotEmbeddingCost (slots : EventSlots) : ℚ :=
  match slots.retrieval with
  | some r => r.embedding_cost
  | none => 0

/-- Well-behavedness of one capture call's arguments: `captureGeneration`
was given non-negative token counts (other calls are unconstrained). -/
def goodCall : CaptureCall → Prop
  | .generationC _ _ i o _ _ _ => 0 ≤ i ∧ 0 ≤ o
  | _ => True

instance {ε α : Type} [DecidableEq ε] [DecidableEq α] : DecidableEq (Except ε α) :=
  fun a b =>
    match a, b with
    | .error x, .error y =>
      if h : x = y then .isTrue (by rw [h]) else .isFalse (by simp [h])
    | .ok x, .ok y =>
      if h : x = y then .isTrue (by rw [h]) else .isFalse (by simp [h])
    | .error _, .ok _ => .isFalse (by simp)
    | .ok _, .error _ => .isFalse (by simp)

/-! ### Concrete inputs used by counterexamples and witnesses -/

/-- A tokenizer environment with no model-specific encodings and a
`cl100k_base` whose encode call always raises. -/
def noTokEnv : TokEnv := ⟨fun _ => none, fun _ => none⟩

/-- Tokenizer counting one token per character. -/
def exTok : Tokenizer := fun s => some s.length

/-- A `cl100k_base` stand-in: raises on the text `"boom"`, otherwise
counts two tokens per character. -/
def exCl100k : Tokenizer := fun s => if s = "boom" then none else some (2 * s.length)

/-- Tokenizer environment: only `"gpt-4"` has a specific encoding. -/
def exEnv : TokEnv := ⟨fun m => if m = "gpt-4" then some exTok else none, exCl100k⟩

/-- C1 failing input: one session, one event of that session, one
snapshot derived from it. -/
def c1session : RagSession := ⟨"s1", "What is RAG?", 0, none, none, none, none⟩

/-- The event row owned by session `"s1"`. -/
def c1event : StoredEventR :=
  ⟨"e1", "s1", "generation", 1,
    .generationD ⟨"s1", 1, "answer", "gpt-4", 500, 200, 0.027, 2500, none⟩⟩

/-- The snapshot derived from session `"s1"`. -/
def c1snap : SnapshotR :=
  ⟨"sn1", "s1", "What is RAG?", [], "answer", 0.027, 2, [], some "gpt-4"⟩

/-- The stored state for the C1 failing input. -/
def c1db : DB := ⟨[c1session], [c1event], [c1snap]⟩

/-- C2 counterexample generation event: token counts present,
`input_tokens + output_tokens = 100 ≠ 0`, but `output_tokens = 0`. -/
def c2gen : GenerationEventR := ⟨"s2", 1, "resp", "gpt-4", 100, 0, 1/10, 1000, none⟩

/-- C2 counterexample store state. -/
def c2db : DB :=
  ⟨[⟨"s2", "q", 0, none, none, none, none⟩],
   [⟨"e2", "s2", "generation", 1, .generationD c2gen⟩], []⟩

/-- C2 witness generation event (both token counts nonzero). -/
def c2wgen : GenerationEventR := ⟨"w2", 1, "resp", "gpt-4", 500, 200, 27/1000, 2500, none⟩

/-- C2 witness store state. -/
def c2wdb : DB := ⟨[], [⟨"ew", "w2", "generation", 1, .generationD c2wgen⟩], []⟩

/-- C4 session on which the zero-field update is attempted. -/
def c4session : RagSession := ⟨"s4", "q", 0, none, none, none, none⟩

/-- C4 store state. -/
def c4db : DB := ⟨[c4session], [], []⟩

/-- An update naming zero allow-listed fields. -/
def noUpdates : SessionUpdates := ⟨none, none, none, none⟩

/-- An update naming one allow-listed field (`total_cost := 1`). -/
def costUpdate : SessionUpdates := ⟨none, some (some 1), none, none⟩

/-- C9 counterexample trace: a single `capture_generation` call passing a
negative input-token count. -/
def c9trace : List CaptureCall :=
  [.generationC "resp" "gpt-4" (-1000) 0 100 none 1]

/-- The session finalized from the C9 counterexample trace. -/
def c9session : RagSession :=
  to_session (applyTrace noTokEnv (CaptureSession.init "s9" "q" 0) c9trace) 2

/-- C9 witness trace: a retrieval and a generation with the §8 scenario
numbers (gpt-4, 500 input / 200 output tokens). -/
def c9wtrace : List CaptureCall :=
  [.retrievalC [] 150 "text-embedding-ada-002" 1,
   .generationC "a" "gpt-4" 500 200 2500 none 2]

/-- C8 witness: the session's older generation event. -/
def w8g1 : GenerationEventR := ⟨"s8", 1, "old", "m", 1, 1, 0, 1, none⟩

/-- C8 witness: the session's newer generation event. -/
def w8g2 : GenerationEventR := ⟨"s8", 5, "new", "m", 1, 1, 0, 1, none⟩

/-- C8 witness store state: two stored events share the type
`"generation"` for session `"s8"`. -/
def c8wdb : DB :=
  ⟨[⟨"s8", "q", 0, none, none, none, none⟩],
   [⟨"a", "s8", "generation", 1, .generationD w8g1⟩,
    ⟨"b", "s8", "generation", 5, .generationD w8g2⟩], []⟩

/-- C10 witness store state: one session, zero stored events. -/
def c10wdb : DB := ⟨[⟨"sw", "q", 0, none, none, none, none⟩], [], []⟩

/-! ## Theorems -/

/-- C6: for every model name not present in the static price table,
pricing lookup returns the default pair (input 0.0015, output 0.002) —
exact-match lookup only, never a closest match, never an error. -/
theorem c6_unknown_model_default_pricing (model : String)
    (h : ∀ p ∈ PRICING, p.1 ≠ model) :
    get_pricing_info model = DEFAULT_PRICING := by
  have hfind : PRICING.find? (fun p => p.1 == model) = none :=
    List.find?_eq_none.mpr (fun x hx => by simpa using h x hx)
  simp [get_pricing_info, pricingGet, hfind]

/-- C6 witness: `"made-up-model"` is not in the table and gets the
default pair `(0.0015, 0.002)`. -/
theorem c6_unknown_model_default_pricing_witness :
    (∀ p ∈ PRICING, p.1 ≠ "made-up-model") ∧
      get_pricing_info "made-up-model" = ⟨0.0015, some 0.002⟩ :=
  ⟨by decide, (c6_unknown_model_default_pricing "made-up-model" (by decide)).trans rfl⟩

/-- C5: `count_tokens` returns 0 for the empty string for every tokenizer
environment (hence without consulting any tokenizer); for non-empty text
it returns the model-specific tokenizer's count, falls back to the shared
`cl100k_base` tokenizer when no model-specific one is registered, and
falls back to `len(text) / 4` rounded down when tokenization fails. -/
theorem c5_count_tokens_spec (env : TokEnv) (text model : String)
    (tok : Tokenizer) (n : ℕ) :
    count_tokens env "" model = 0
    ∧ (text ≠ "" → env.encoding_for_model model = some tok → tok text = some n →
        count_tokens env text model = n)
    ∧ (text ≠ "" → env.encoding_for_model model = none →
        env.cl100k_base text = some n → count_tokens env text model = n)
    ∧ (text ≠ "" → get_tokenizer env model text = none →
        count_tokens env text model = text.length / 4) := by
  refine ⟨by simp [count_tokens], ?_, ?_, ?_⟩
  · intro ht h1 h2
    simp [count_tokens, ht, get_tokenizer, h1, h2]
  · intro ht h1 h2
    simp [count_tokens, ht, get_tokenizer, h1, h2]
  · intro ht h1
    simp [count_tokens, ht, h1]

/-- C5 witness: empty text ⇒ 0; `"gpt-4"` uses its own tokenizer
(3 tokens for `"abc"`); an unregistered model uses `cl100k_base`
(8 tokens for `"abcd"`); a raising tokenizer falls back to
`len("boom") / 4 = 1`. -/
theorem c5_count_tokens_spec_witness :
    count_tokens exEnv "" "gpt-4" = 0
    ∧ count_tokens exEnv "abc" "gpt-4" = 3
    ∧ count_tokens exEnv "abcd" "other" = 8
    ∧ count_tokens exEnv "boom" "other" = 1 :=
  ⟨(c5_count_tokens_spec exEnv "abc" "gpt-4" exTok 3).1,
   (c5_count_tokens_spec exEnv "abc" "gpt-4" exTok 3).2.1 (by decide) rfl rfl,
   (c5_count_tokens_spec exEnv "abcd" "other" exTok 8).2.2.1 (by decide) rfl rfl,
   (c5_count_tokens_spec exEnv "boom" "other" exTok 0).2.2.2 (by decide) rfl⟩

/-- C7: `totalDuration()` is `None` ("unknown") unless both the retrieval
and the generation event are present, in which case it is exactly the sum
of their durations; the prompt slot never affects the result. -/
theorem c7_total_duration_spec (cs : CaptureSession) :
    (get_total_duration cs =
      match cs.retrieval_event, cs.generation_event with
      | some r, some g => some (r.duration_ms + g.duration_ms)
      | _, _ => none)
    ∧ (∀ p, get_total_duration { cs with prompt_event := p } =
        get_total_duration cs) := by
  constructor
  · rcases h1 : cs.retrieval_event with _ | r <;>
      rcases h2 : cs.generation_event with _ | g <;>
      simp [get_total_duration, h1, h2]
  · intro p
    rfl

/-- C3: every `CostBreakdown` produced by `get_cost_breakdown` satisfies
`total_cost = embedding_cost + input_cost + output_cost` exactly, for
every store state and every combination of present/absent events. -/
theorem c3_cost_additivity (db : DB) (sid : String) (bd : CostBreakdown)
    (h : get_cost_breakdown db sid = .ok bd) :
    bd.total_cost = bd.embedding_cost + bd.input_cost + bd.output_cost := by
  rw [get_cost_breakdown.eq_def] at h
  split at h
  · exact absurd h (by simp)
  · dsimp only at h
    split at h
    · exact absurd h (by simp)
    · rename_i ic oc heq
      rw [Except.ok.injEq] at h
      subst h
      rfl

/-- C3 witness: the empty store yields the all-zero breakdown, whose
total is the sum of its parts. -/
theorem c3_cost_additivity_witness :
    (CostBreakdown.mk "s" 0 0 0 0).total_cost =
      (CostBreakdown.mk "s" 0 0 0 0).embedding_cost +
        (CostBreakdown.mk "s" 0 0 0 0).input_cost +
        (CostBreakdown.mk "s" 0 0 0 0).output_cost :=
  c3_cost_additivity ⟨[], [], []⟩ "s" (CostBreakdown.mk "s" 0 0 0 0) (by
    have he : get_events ⟨[], [], []⟩ "s" = .ok ⟨none, none, none⟩ := rfl
    rw [get_cost_breakdown.eq_def, he]
    norm_num)

/-- C1 (code defect): the connection never issues
`PRAGMA foreign_keys = ON`, so SQLite's default leaves the declared
`ON DELETE CASCADE` inert.  Evaluating `delete_session` at a store
holding session `"s1"`, one event of `"s1"` and one snapshot of `"s1"`:
the delete reports success and a later `sessionDetail` read is null, but
the event row of the deleted session is still stored (orphaned), contrary
to the claim, the spec, and the method's own docstring ("Delete a session
and all its events").  The snapshot is indeed still retrievable
unchanged. -/
theorem c1_delete_leaves_orphan_events :
    (delete_session c1db "s1").2 = true
    ∧ get_session_detail (delete_session c1db "s1").1 "s1" = .ok none
    ∧ (delete_session c1db "s1").1.events.filter
        (fun r => r.session_id == "s1") = [c1event]
    ∧ get_snapshot (delete_session c1db "s1").1 "sn1" = some c1snap := by
  refine ⟨rfl, rfl, rfl, rfl⟩

/-- C2 counterexample: the generation event has both token counts present
and their sum `100 + 0 = 100` is nonzero, yet `get_cost_breakdown`
splits the cost 50/50 (the code's truthiness test
`if input_tokens and output_tokens:` fails on `output_tokens = 0`),
instead of the proportional `input_cost = total * 100/100 = total`
required by the claim. -/
theorem c2_counterexample :
    c2gen.input_tokens + c2gen.output_tokens ≠ 0
    ∧ get_cost_breakdown c2db "s2" = .ok ⟨"s2", 0, 1/20, 1/20, 1/10⟩
    ∧ ¬ ((1 : ℚ)/20 = c2gen.cost *
          ((c2gen.input_tokens : ℚ) /
            ((c2gen.input_tokens + c2gen.output_tokens : ℤ) : ℚ))) := by
  have he : get_events c2db "s2" = .ok ⟨none, none, some c2gen⟩ := rfl
  refine ⟨by decide, ?_, by norm_num [c2gen]⟩
  rw [get_cost_breakdown.eq_def, he]
  norm_num [c2gen]

/-- C4 counterexample: the zero-field update on the *existing* session
`"s4"` silently does nothing and returns `False` — the very same
outcome value a one-field update returns for a *missing* session id, so
the zero-field case is not a distinguishable ValidationError signal. -/
theorem c4_counterexample :
    update_session c4db "s4" noUpdates = (c4db, false)
    ∧ (update_session c4db "missing" costUpdate).2 = false
    ∧ get_session c4db "s4" = some c4session := by
  refine ⟨rfl, rfl, rfl⟩

/-- The dynamic UPDATE never touches the primary key. -/
@[simp] lemma applyUpdates_id (u : SessionUpdates) (s : RagSession) :
    (applyUpdates u s).id = s.id := rfl

/-- Looking up the updated id after the UPDATE row-transformer finds the
transformed row. -/
lemma find?_map_update_self (l : List RagSession) (sid : String) (u : SessionUpdates) :
    (l.map (fun s => if s.id == sid then applyUpdates u s else s)).find?
        (fun s => s.id == sid) =
      (l.find? (fun s => s.id == sid)).map (applyUpdates u) := by
  induction l with
  | nil => rfl
  | cons a l ih =>
    simp only [List.map_cons]
    by_cases h : (a.id == sid) = true
    · rw [if_pos h]
      simp only [List.find?, applyUpdates_id, h]
      rfl
    · have hb : (a.id == sid) = false := by simpa using h
      rw [if_neg h]
      simp only [List.find?, hb]
      exact ih

/-- Looking up any other id is unaffected by the UPDATE row-transformer. -/
lemma find?_map_update_other (l : List RagSession) (sid sid2 : String)
    (u : SessionUpdates) (h2 : sid2 ≠ sid) :
    (l.map (fun s => if s.id == sid then applyUpdates u s else s)).find?
        (fun s => s.id == sid2) =
      l.find? (fun s => s.id == sid2) := by
  induction l with
  | nil => rfl
  | cons a l ih =>
    simp only [List.map_cons]
    by_cases h : (a.id == sid) = true
    · have hid : a.id = sid := by simpa using h
      have hR : (a.id == sid2) = false := by
        simp [hid]
        exact Ne.symm h2
      rw [if_pos h]
      simp only [List.find?, applyUpdates_id, hR]
      exact ih
    · rw [if_neg h]
      cases hp : (a.id == sid2) with
      | true => simp only [List.find?, hp]
      | false =>
        simp only [List.find?, hp]
        exact ih

/-- C4 (amended): a zero-field update returns `(db, False)` — a silent
no-op yielding the same `False` as the not-found outcome, hence *not* a
distinguishable ValidationError signal; an update naming at least one
allow-listed field reports success iff the session exists, rewrites
exactly the named fields of exactly that session, and leaves every other
session and the other tables untouched. -/
theorem c4_update_session_amended (db : DB) (sid : String) (u : SessionUpdates) :
    (u.completed_at = none ∧ u.total_cost = none ∧
        u.total_duration_ms = none ∧ u.model = none →
      update_session db sid u = (db, false))
    ∧ (¬ (u.completed_at = none ∧ u.total_cost = none ∧
          u.total_duration_ms = none ∧ u.model = none) →
        ((update_session db sid u).2 = true ↔ (get_session db sid).isSome = true)
        ∧ (∀ s, get_session db sid = some s →
            get_session (update_session db sid u).1 sid = some (applyUpdates u s))
        ∧ (∀ sid2, sid2 ≠ sid →
            get_session (update_session db sid u).1 sid2 = get_session db sid2)
        ∧ (update_session db sid u).1.events = db.events
        ∧ (update_session db sid u).1.snapshots = db.snapshots) := by
  constructor
  · intro h
    unfold update_session
    rw [if_pos h]
  · intro h
    unfold update_session
    rw [if_neg h]
    refine ⟨?_, ?_, ?_, rfl, rfl⟩
    · simp [get_session, List.any_eq_true, List.find?_isSome]
    · intro s hs
      simp only [get_session] at hs ⊢
      rw [find?_map_update_self, hs]
      rfl
    · intro sid2 hne
      simp only [get_session]
      exact find?_map_update_other _ _ _ _ hne

/-- C4 witness: on the concrete store holding session `"s4"`, a one-field
update succeeds and rewrites exactly that field. -/
theorem c4_update_session_amended_witness :
    ((update_session c4db "s4" costUpdate).2 = true ↔
      (get_session c4db "s4").isSome = true)
    ∧ get_session (update_session c4db "s4" costUpdate).1 "s4" =
        some (applyUpdates costUpdate c4session) := by
  have h := (c4_update_session_amended c4db "s4" costUpdate).2 (by decide)
  exact ⟨h.1, h.2.1 c4session rfl⟩

/-- C2 (amended): a generation event's stored total cost is split
proportionally to token counts only when *both* token counts are nonzero
(the code's truthiness test `if input_tokens and output_tokens:`); if
either count is zero the split is 50/50 — even when the counts sum to a
nonzero value. -/
theorem c2_cost_split_amended (db : DB) (sid : String) (slots : EventSlots)
    (g : GenerationEventR) (he : get_events db sid = .ok slots)
    (hg : slots.generation = some g) :
    (g.input_tokens ≠ 0 → g.output_tokens ≠ 0 →
      g.input_tokens + g.output_tokens ≠ 0 →
      get_cost_breakdown db sid = .ok
        ⟨sid, slotEmbeddingCost slots,
          g.cost * ((g.input_tokens : ℚ) /
            ((g.input_tokens + g.output_tokens : ℤ) : ℚ)),
          g.cost * ((g.output_tokens : ℚ) /
            ((g.input_tokens + g.output_tokens : ℤ) : ℚ)),
          slotEmbeddingCost slots
            + g.cost * ((g.input_tokens : ℚ) /
                ((g.input_tokens + g.output_tokens : ℤ) : ℚ))
            + g.cost * ((g.output_tokens : ℚ) /
                ((g.input_tokens + g.output_tokens : ℤ) : ℚ))⟩)
    ∧ (g.input_tokens = 0 ∨ g.output_tokens = 0 →
      get_cost_breakdown db sid = .ok
        ⟨sid, slotEmbeddingCost slots, g.cost / 2, g.cost / 2,
          slotEmbeddingCost slots + g.cost / 2 + g.cost / 2⟩) := by
  constructor
  · intro h1 h2 h3
    rw [get_cost_breakdown.eq_def, he]
    dsimp only
    rw [hg]
    dsimp only
    rw [if_pos ⟨h1, h2⟩, if_neg h3]
    rfl
  · intro h0
    rw [get_cost_breakdown.eq_def, he]
    dsimp only
    rw [hg]
    dsimp only
    rw [if_neg (by tauto)]
    rfl

/-- C2 witness: for a generation event with 500 input and 200 output
tokens, the split is proportional. -/
theorem c2_cost_split_amended_witness :
    get_cost_breakdown c2wdb "w2" = .ok
      ⟨"w2", slotEmbeddingCost ⟨none, none, some c2wgen⟩,
        c2wgen.cost * ((c2wgen.input_tokens : ℚ) /
          ((c2wgen.input_tokens + c2wgen.output_tokens : ℤ) : ℚ)),
        c2wgen.cost * ((c2wgen.output_tokens : ℚ) /
          ((c2wgen.input_tokens + c2wgen.output_tokens : ℤ) : ℚ)),
        slotEmbeddingCost ⟨none, none, some c2wgen⟩
          + c2wgen.cost * ((c2wgen.input_tokens : ℚ) /
              ((c2wgen.input_tokens + c2wgen.output_tokens : ℤ) : ℚ))
          + c2wgen.cost * ((c2wgen.output_tokens : ℚ) /
              ((c2wgen.input_tokens + c2wgen.output_tokens : ℤ) : ℚ))⟩ :=
  (c2_cost_split_amended c2wdb "w2" ⟨none, none, some c2wgen⟩ c2wgen rfl rfl).1
    (by decide) (by decide) (by decide)

/-- Every rate in the literal price table is non-negative. -/
lemma PRICING_rates_nonneg :
    ∀ p ∈ PRICING, 0 ≤ p.2.input ∧ 0 ≤ p.2.output.getD 0 := by
  intro p hp
  fin_cases hp <;> exact ⟨by norm_num, by norm_num [Option.getD]⟩

/-- The input rate obtained from any lookup-with-default is non-negative
whenever the default's is. -/
lemma pricing_getD_input_nonneg (m : String) (dflt : Pricing)
    (hd : 0 ≤ dflt.input) : 0 ≤ ((pricingGet m).getD dflt).input := by
  cases h : pricingGet m with
  | none => simpa using hd
  | some p =>
    have h2 : ∃ a, List.find? (fun x => x.1 == m) PRICING = some (a, p) := by
      simpa [pricingGet] using h
    obtain ⟨a, hq⟩ := h2
    have hmem := List.mem_of_find?_eq_some hq
    have hin := (PRICING_rates_nonneg (a, p) hmem).1
    simpa using hin

/-- The output rate used by `calculate_generation_cost` (falling back to
the input rate) is non-negative. -/
lemma pricing_getD_output_nonneg (m : String) :
    0 ≤ (((pricingGet m).getD DEFAULT_PRICING).output.getD
      ((pricingGet m).getD DEFAULT_PRICING).input) := by
  cases h : pricingGet m with
  | none => norm_num [Option.getD, DEFAULT_PRICING]
  | some p =>
    have h2 : ∃ a, List.find? (fun x => x.1 == m) PRICING = some (a, p) := by
      simpa [pricingGet] using h
    obtain ⟨a, hq⟩ := h2
    have hmem := List.mem_of_find?_eq_some hq
    have hin := (PRICING_rates_nonneg (a, p) hmem).1
    have hout := (PRICING_rates_nonneg (a, p) hmem).2
    rw [Option.getD_some]
    cases ho : p.output with
    | none => simpa [ho] using hin
    | some o =>
      rw [show (a, p).2.output = p.output from rfl, ho] at hout
      simpa using hout

/-- Helper: `calculate_embedding_cost` never returns a negative cost (token
counts are natural numbers). -/
lemma calculate_embedding_cost_nonneg (n : ℕ) (m : String) :
    0 ≤ calculate_embedding_cost n m := by
  unfold calculate_embedding_cost
  exact mul_nonneg (by positivity)
    (pricing_getD_input_nonneg m ⟨0.0001, none⟩ (by norm_num))

/-- Helper: `calculate_generation_cost` returns a non-negative total when both
token counts are non-negative. -/
lemma calculate_generation_cost_nonneg (i o : ℤ) (m : String)
    (hi : 0 ≤ i) (ho : 0 ≤ o) :
    0 ≤ (calculate_generation_cost i o m).2.2 := by
  unfold calculate_generation_cost
  dsimp only
  refine add_nonneg (mul_nonneg ?_ ?_) (mul_nonneg ?_ ?_)
  · exact div_nonneg (by exact_mod_cast hi) (by norm_num)
  · exact pricing_getD_input_nonneg m DEFAULT_PRICING (by norm_num [DEFAULT_PRICING])
  · exact div_nonneg (by exact_mod_cast ho) (by norm_num)
  · exact pricing_getD_output_nonneg m

/-- The cost fields sitting in the aggregator's slots are non-negative. -/
def slotsCostNonneg (cs : CaptureSession) : Prop :=
  (∀ r, cs.retrieval_event = some r → 0 ≤ r.embedding_cost) ∧
  (∀ g, cs.generation_event = some g → 0 ≤ g.cost)

/-- One well-behaved capture call preserves slot-cost non-negativity. -/
lemma applyCall_slotsCostNonneg (env : TokEnv) (c : CaptureCall)
    (cs : CaptureSession) (hc : goodCall c) (h : slotsCostNonneg cs) :
    slotsCostNonneg (applyCall env cs c) := by
  cases c with
  | retrievalC chunks d m now =>
    constructor
    · intro r hr
      simp only [applyCall, capture_retrieval, Option.some.injEq] at hr
      subst hr
      exact calculate_embedding_cost_nonneg _ _
    · exact h.2
  | promptC p m t now => exact h
  | generationC r m i o d tp now =>
    obtain ⟨hi, ho⟩ := hc
    constructor
    · exact h.1
    · intro g hg
      simp only [applyCall, capture_generation, Option.some.injEq] at hg
      subst hg
      exact calculate_generation_cost_nonneg i o m hi ho

/-- A whole trace of well-behaved capture calls preserves slot-cost
non-negativity. -/
lemma applyTrace_slotsCostNonneg (env : TokEnv) (trace : List CaptureCall) :
    ∀ cs : CaptureSession, slotsCostNonneg cs → (∀ c ∈ trace, goodCall c) →
      slotsCostNonneg (applyTrace env cs trace) := by
  induction trace with
  | nil => exact fun cs h _ => h
  | cons c tr ih =>
    intro cs h hT
    exact ih _ (applyCall_slotsCostNonneg env c cs (hT c (by simp)) h)
      (fun c2 hc2 => hT c2 (by simp [hc2]))

/-- No capture call changes the aggregator's creation time. -/
lemma applyTrace_created_at (env : TokEnv) (trace : List CaptureCall) :
    ∀ cs : CaptureSession, (applyTrace env cs trace).created_at = cs.created_at := by
  induction trace with
  | nil => exact fun _ => rfl
  | cons c tr ih =>
    intro cs
    rw [show applyTrace env cs (c :: tr) = applyTrace env (applyCall env cs c) tr from rfl,
      ih]
    cases c <;> rfl

/-- C9 (amended): a session finalized from any capture trace whose
`capture_generation` calls all received non-negative token counts, at a
finalize clock reading not earlier than the creation reading, satisfies
the Session invariants `completed_at ≥ created_at` and `total_cost ≥ 0`. -/
theorem c9_finalized_session_invariants_amended (env : TokEnv)
    (sid q : String) (t0 now : ℕ) (trace : List CaptureCall)
    (hT : ∀ c ∈ trace, goodCall c) (hclock : t0 ≤ now) :
    (∀ t, (to_session (applyTrace env (CaptureSession.init sid q t0) trace)
        now).completed_at = some t →
      (to_session (applyTrace env (CaptureSession.init sid q t0) trace)
        now).created_at ≤ t)
    ∧ (∀ x, (to_session (applyTrace env (CaptureSession.init sid q t0) trace)
        now).total_cost = some x → 0 ≤ x) := by
  constructor
  · intro t ht
    rw [show (to_session (applyTrace env (CaptureSession.init sid q t0) trace)
        now).completed_at = some now from rfl] at ht
    cases ht
    rw [show (to_session (applyTrace env (CaptureSession.init sid q t0) trace)
        now).created_at =
      (applyTrace env (CaptureSession.init sid q t0) trace).created_at from rfl,
      applyTrace_created_at]
    exact hclock
  · intro x hx
    rw [show (to_session (applyTrace env (CaptureSession.init sid q t0) trace)
        now).total_cost =
      some (get_total_cost (applyTrace env (CaptureSession.init sid q t0) trace))
      from rfl] at hx
    cases hx
    have hinv := applyTrace_slotsCostNonneg env trace (CaptureSession.init sid q t0)
      ⟨fun r h => Option.noConfusion h, fun g h => Option.noConfusion h⟩ hT
    unfold get_total_cost
    refine add_nonneg ?_ ?_
    · cases hr : (applyTrace env (CaptureSession.init sid q t0) trace).retrieval_event with
      | none => simp
      | some r => simpa using hinv.1 r hr
    · cases hg : (applyTrace env (CaptureSession.init sid q t0) trace).generation_event with
      | none => simp
      | some g => simpa using hinv.2 g hg

/-- C9 counterexample: the claim quantifies over *any* argument values;
passing the (Python-legal) negative token count `input_tokens = -1000` to
`capture_generation` with model `"gpt-4"` yields a finalized session with
`total_cost = -0.03 < 0`, violating the invariant as claimed. -/
theorem c9_counterexample :
    c9session.completed_at = some 2
    ∧ c9session.created_at = 0
    ∧ c9session.total_cost = some (-(3/100 : ℚ))
    ∧ ¬ (0 : ℚ) ≤ -(3/100 : ℚ) := by
  refine ⟨rfl, rfl, ?_, by norm_num⟩
  have hp : pricingGet "gpt-4" = some ⟨0.03, some 0.06⟩ := rfl
  have hgcost : (calculate_generation_cost (-1000) 0 "gpt-4").2.2 = -(3/100 : ℚ) := by
    unfold calculate_generation_cost
    rw [hp]
    norm_num
  have hr0 : (applyTrace noTokEnv (CaptureSession.init "s9" "q" 0)
      c9trace).retrieval_event = none := rfl
  have hg0 : (applyTrace noTokEnv (CaptureSession.init "s9" "q" 0)
      c9trace).generation_event = some ⟨"s9", 1, "resp", "gpt-4", -1000, 0,
        (calculate_generation_cost (-1000) 0 "gpt-4").2.2, 100, none⟩ := rfl
  rw [show c9session.total_cost =
      some (get_total_cost (applyTrace noTokEnv (CaptureSession.init "s9" "q" 0)
        c9trace)) from rfl]
  unfold get_total_cost
  rw [hr0, hg0]
  simp only [Option.elim, hgcost]
  norm_num

/-- C9 witness: the §8 scenario trace (gpt-4, 500/200 tokens, plus a
retrieval) finalized at time 3 has `total_cost = 0.027 ≥ 0` and
`created_at ≤ 3`. -/
theorem c9_finalized_session_invariants_amended_witness :
    (to_session (applyTrace noTokEnv (CaptureSession.init "w9" "q" 0) c9wtrace)
        3).total_cost = some (27/1000 : ℚ)
    ∧ (0 : ℚ) ≤ 27/1000
    ∧ (to_session (applyTrace noTokEnv (CaptureSession.init "w9" "q" 0) c9wtrace)
        3).created_at ≤ 3 := by
  have hT : ∀ c ∈ c9wtrace, goodCall c := by
    intro c hc
    simp only [c9wtrace, List.mem_cons, List.mem_singleton] at hc
    rcases hc with rfl | rfl | hc
    · trivial
    · exact ⟨by norm_num, by norm_num⟩
    · cases hc
  have h := c9_finalized_session_invariants_amended noTokEnv "w9" "q" 0 3 c9wtrace
    hT (by norm_num)
  have hx : (to_session (applyTrace noTokEnv (CaptureSession.init "w9" "q" 0)
      c9wtrace) 3).total_cost = some (27/1000 : ℚ) := by
    have hpe : pricingGet "text-embedding-ada-002" = some ⟨0.0001, none⟩ := rfl
    have hpg : pricingGet "gpt-4" = some ⟨0.03, some 0.06⟩ := rfl
    have hec : calculate_embedding_cost 0 "text-embedding-ada-002" = 0 := by
      unfold calculate_embedding_cost
      rw [hpe]
      norm_num
    have hgc : (calculate_generation_cost 500 200 "gpt-4").2.2 = (27/1000 : ℚ) := by
      unfold calculate_generation_cost
      rw [hpg]
      norm_num
    have hr0 : (applyTrace noTokEnv (CaptureSession.init "w9" "q" 0)
        c9wtrace).retrieval_event = some ⟨"w9", 1, [], 150, some 0,
          calculate_embedding_cost 0 "text-embedding-ada-002",
          some "vector_search"⟩ := rfl
    have hg0 : (applyTrace noTokEnv (CaptureSession.init "w9" "q" 0)
        c9wtrace).generation_event = some ⟨"w9", 2, "a", "gpt-4", 500, 200,
          (calculate_generation_cost 500 200 "gpt-4").2.2, 2500, none⟩ := rfl
    rw [show (to_session (applyTrace noTokEnv (CaptureSession.init "w9" "q" 0)
        c9wtrace) 3).total_cost =
      some (get_total_cost (applyTrace noTokEnv (CaptureSession.init "w9" "q" 0)
        c9wtrace)) from rfl]
    unfold get_total_cost
    rw [hr0, hg0]
    simp only [Option.elim, hec, hgc]
    norm_num
  exact ⟨hx, h.2 _ hx, h.1 3 rfl⟩

/-- C10: for every existing session (with well-formed stored events,
i.e. parseable rows and non-negative token counts), `get_cost_breakdown`
returns a `CostBreakdown` value — never an absent/None one — and
`get_session_detail` embeds exactly that breakdown; when the session has
no events at all the breakdown is exactly all zeros. -/
theorem c10_breakdown_always_present (db : DB) (sid : String)
    (session : RagSession) (slots : EventSlots)
    (hs : get_session db sid = some session)
    (he : get_events db sid = .ok slots)
    (hg : ∀ g, slots.generation = some g →
      0 ≤ g.input_tokens ∧ 0 ≤ g.output_tokens) :
    ∃ bd, get_cost_breakdown db sid = .ok bd
      ∧ get_session_detail db sid =
          .ok (some ⟨session, slots.retrieval, slots.prompt,
            slots.generation, some bd⟩)
      ∧ (slots = ⟨none, none, none⟩ → bd = ⟨sid, 0, 0, 0, 0⟩) := by
  have detail_of : ∀ bd : CostBreakdown, get_cost_breakdown db sid = .ok bd →
      get_session_detail db sid = .ok (some ⟨session, slots.retrieval,
        slots.prompt, slots.generation, some bd⟩) := by
    intro bd hbd
    rw [get_session_detail.eq_def, hs]
    dsimp only
    rw [he]
    dsimp only
    rw [hbd]
  cases hgen : slots.generation with
  | none =>
    have hbd : get_cost_breakdown db sid = .ok
        ⟨sid, slotEmbeddingCost slots, 0, 0,
          slotEmbeddingCost slots + 0 + 0⟩ := by
      rw [get_cost_breakdown.eq_def, he]
      dsimp only
      rw [hgen]
      rfl
    have hdet := detail_of _ hbd
    rw [hgen] at hdet
    refine ⟨_, hbd, hdet, ?_⟩
    intro hempty
    subst hempty
    simp [slotEmbeddingCost]
  | some g =>
    have hne : ¬ slots = ⟨none, none, none⟩ := by
      intro hempty
      rw [hempty] at hgen
      cases hgen
    by_cases hc : g.input_tokens ≠ 0 ∧ g.output_tokens ≠ 0
    · have hsum : ¬ g.input_tokens + g.output_tokens = 0 := by
        obtain ⟨hi, ho⟩ := hg g hgen
        obtain ⟨h1, _⟩ := hc
        omega
      have hbd : get_cost_breakdown db sid = .ok
          ⟨sid, slotEmbeddingCost slots,
            g.cost * ((g.input_tokens : ℚ) /
              ((g.input_tokens + g.output_tokens : ℤ) : ℚ)),
            g.cost * ((g.output_tokens : ℚ) /
              ((g.input_tokens + g.output_tokens : ℤ) : ℚ)),
            slotEmbeddingCost slots
              + g.cost * ((g.input_tokens : ℚ) /
                  ((g.input_tokens + g.output_tokens : ℤ) : ℚ))
              + g.cost * ((g.output_tokens : ℚ) /
                  ((g.input_tokens + g.output_tokens : ℤ) : ℚ))⟩ := by
        rw [get_cost_breakdown.eq_def, he]
        dsimp only
        rw [hgen]
        dsimp only
        rw [if_pos hc, if_neg hsum]
        rfl
      have hdet := detail_of _ hbd
      rw [hgen] at hdet
      exact ⟨_, hbd, hdet, fun hempty => absurd hempty hne⟩
    · have hbd : get_cost_breakdown db sid = .ok
          ⟨sid, slotEmbeddingCost slots, g.cost / 2, g.cost / 2,
            slotEmbeddingCost slots + g.cost / 2 + g.cost / 2⟩ := by
        rw [get_cost_breakdown.eq_def, he]
        dsimp only
        rw [hgen]
        dsimp only
        rw [if_neg hc]
        rfl
      have hdet := detail_of _ hbd
      rw [hgen] at hdet
      exact ⟨_, hbd, hdet, fun hempty => absurd hempty hne⟩

/-- C10 witness: a session with zero stored events still gets a (fully
zero) `CostBreakdown` from `get_cost_breakdown` / `get_session_detail`. -/
theorem c10_breakdown_always_present_witness :
    get_cost_breakdown c10wdb "sw" = .ok ⟨"sw", 0, 0, 0, 0⟩
    ∧ get_session_detail c10wdb "sw" = .ok (some
        ⟨⟨"sw", "q", 0, none, none, none, none⟩, none, none, none,
          some ⟨"sw", 0, 0, 0, 0⟩⟩) := by
  obtain ⟨bd, h1, h2, h3⟩ := c10_breakdown_always_present c10wdb "sw"
    ⟨"sw", "q", 0, none, none, none, none⟩ ⟨none, none, none⟩ rfl rfl
    (fun g h => Option.noConfusion h)
  have hz := h3 rfl
  subst hz
  exact ⟨h1, h2⟩

/-- An element returned by `getLast?` is a member of the list. -/
lemma mem_of_getLast?' {l : List StoredEventR} {a : StoredEventR}
    (h : l.getLast? = some a) : a ∈ l := by
  obtain ⟨hne, heq⟩ := List.mem_getLast?_eq_getLast (Option.mem_def.mpr h)
  rw [heq]
  exact List.getLast_mem hne

/-- In a timestamp-sorted row list, the last element's timestamp bounds
every element's timestamp. -/
lemma sorted_getLast?_le (l : List StoredEventR) (hs : l.Sorted tsLE) :
    ∀ a, l.getLast? = some a → ∀ b ∈ l, b.timestamp ≤ a.timestamp := by
  induction l with
  | nil =>
    intro a ha
    cases ha
  | cons x xs ih =>
    intro a ha b hb
    rcases List.sorted_cons.mp hs with ⟨hx, hxs⟩
    cases xs with
    | nil =>
      have hax : a = x := by simpa using ha.symm
      subst hax
      have hbx : b = a := by simpa using hb
      subst hbx
      exact le_refl _
    | cons y ys =>
      rw [List.getLast?_cons_cons] at ha
      rcases List.mem_cons.mp hb with rfl | hb2
      · exact hx a (mem_of_getLast?' ha)
      · exact ih hxs a ha b hb2

/-- The `get_events` loop and the generation slot: on success, the slot
keeps `acc`'s value iff the list has no `"generation"`-typed row, and
otherwise holds the parsed payload of the *last* such row. -/
lemma fillSlots_generation_char (l : List StoredEventR) :
    ∀ acc out : EventSlots, fillSlots l acc = .ok out →
      (l.filter (fun r => r.event_type == "generation") = [] ∧
        out.generation = acc.generation) ∨
      (∃ r e, (l.filter (fun r => r.event_type == "generation")).getLast? = some r ∧
        r.data = .generationD e ∧ out.generation = some e) := by
  induction l with
  | nil =>
    intro acc out h
    simp only [fillSlots] at h
    rw [Except.ok.injEq] at h
    subst h
    exact Or.inl ⟨rfl, rfl⟩
  | cons r rest ih =>
    intro acc out h
    simp only [fillSlots] at h
    by_cases h1 : (r.event_type == "retrieval") = true
    · rw [if_pos h1] at h
      have hskip : (r.event_type == "generation") = false := by
        have ht : r.event_type = "retrieval" := by simpa using h1
        simp [ht]
      have hf : (r :: rest).filter (fun r => r.event_type == "generation") =
          rest.filter (fun r => r.event_type == "generation") := by
        simp [List.filter_cons, hskip]
      cases hd : r.data with
      | retrievalD e =>
        rw [hd] at h
        rcases ih _ _ h with ⟨hfe, hout⟩ | ⟨r2, e2, hlast, hdata, hout⟩
        · exact Or.inl ⟨by rw [hf]; exact hfe, hout⟩
        · exact Or.inr ⟨r2, e2, by rw [hf]; exact hlast, hdata, hout⟩
      | promptD e =>
        rw [hd] at h
        exact Except.noConfusion h
      | generationD e =>
        rw [hd] at h
        exact Except.noConfusion h
    · rw [if_neg h1] at h
      by_cases h2 : (r.event_type == "prompt") = true
      · rw [if_pos h2] at h
        have hskip : (r.event_type == "generation") = false := by
          have ht : r.event_type = "prompt" := by simpa using h2
          simp [ht]
        have hf : (r :: rest).filter (fun r => r.event_type == "generation") =
            rest.filter (fun r => r.event_type == "generation") := by
          simp [List.filter_cons, hskip]
        cases hd : r.data with
        | promptD e =>
          rw [hd] at h
          rcases ih _ _ h with ⟨hfe, hout⟩ | ⟨r2, e2, hlast, hdata, hout⟩
          · exact Or.inl ⟨by rw [hf]; exact hfe, hout⟩
          · exact Or.inr ⟨r2, e2, by rw [hf]; exact hlast, hdata, hout⟩
        | retrievalD e =>
          rw [hd] at h
          exact Except.noConfusion h
        | generationD e =>
          rw [hd] at h
          exact Except.noConfusion h
      · rw [if_neg h2] at h
        by_cases h3 : (r.event_type == "generation") = true
        · rw [if_pos h3] at h
          have hf : (r :: rest).filter (fun r => r.event_type == "generation") =
              r :: rest.filter (fun r => r.event_type == "generation") := by
            simp [List.filter_cons, h3]
          cases hd : r.data with
          | generationD e =>
            rw [hd] at h
            rcases ih _ _ h with ⟨hfe, hout⟩ | ⟨r2, e2, hlast, hdata, hout⟩
            · refine Or.inr ⟨r, e, ?_, hd, hout⟩
              rw [hf, hfe]
              rfl
            · refine Or.inr ⟨r2, e2, ?_, hdata, hout⟩
              rw [hf]
              cases hrf : rest.filter (fun r => r.event_type == "generation") with
              | nil =>
                rw [hrf] at hlast
                cases hlast
              | cons a as =>
                rw [hrf] at hlast
                rw [List.getLast?_cons_cons]
                exact hlast
          | retrievalD e =>
            rw [hd] at h
            exact Except.noConfusion h
          | promptD e =>
            rw [hd] at h
            exact Except.noConfusion h
        · rw [if_neg h3] at h
          have hskip : (r.event_type == "generation") = false := by
            simpa using h3
          have hf : (r :: rest).filter (fun r => r.event_type == "generation") =
              rest.filter (fun r => r.event_type == "generation") := by
            simp [List.filter_cons, hskip]
          rcases ih _ _ h with ⟨hfe, hout⟩ | ⟨r2, e2, hlast, hdata, hout⟩
          · exact Or.inl ⟨by rw [hf]; exact hfe, hout⟩
          · exact Or.inr ⟨r2, e2, by rw [hf]; exact hlast, hdata, hout⟩

/-- The `get_events` loop and the retrieval slot (see
`fillSlots_generation_char`). -/
lemma fillSlots_retrieval_char (l : List StoredEventR) :
    ∀ acc out : EventSlots, fillSlots l acc = .ok out →
      (l.filter (fun r => r.event_type == "retrieval") = [] ∧
        out.retrieval = acc.retrieval) ∨
      (∃ r e, (l.filter (fun r => r.event_type == "retrieval")).getLast? = some r ∧
        r.data = .retrievalD e ∧ out.retrieval = some e) := by
  induction l with
  | nil =>
    intro acc out h
    simp only [fillSlots] at h
    rw [Except.ok.injEq] at h
    subst h
    exact Or.inl ⟨rfl, rfl⟩
  | cons r rest ih =>
    intro acc out h
    simp only [fillSlots] at h
    by_cases h1 : (r.event_type == "retrieval") = true
    · rw [if_pos h1] at h
      have hf : (r :: rest).filter (fun r => r.event_type == "retrieval") =
          r :: rest.filter (fun r => r.event_type == "retrieval") := by
        simp [List.filter_cons, h1]
      cases hd : r.data with
      | retrievalD e =>
        rw [hd] at h
        rcases ih _ _ h with ⟨hfe, hout⟩ | ⟨r2, e2, hlast, hdata, hout⟩
        · refine Or.inr ⟨r, e, ?_, hd, hout⟩
          rw [hf, hfe]
          rfl
        · refine Or.inr ⟨r2, e2, ?_, hdata, hout⟩
          rw [hf]
          cases hrf : rest.filter (fun r => r.event_type == "retrieval") with
          | nil =>
            rw [hrf] at hlast
            cases hlast
          | cons a as =>
            rw [hrf] at hlast
            rw [List.getLast?_cons_cons]
            exact hlast
      | promptD e =>
        rw [hd] at h
        exact Except.noConfusion h
      | generationD e =>
        rw [hd] at h
        exact Except.noConfusion h
    · rw [if_neg h1] at h
      have hskip : (r.event_type == "retrieval") = false := by simpa using h1
      have hf : (r :: rest).filter (fun r => r.event_type == "retrieval") =
          rest.filter (fun r => r.event_type == "retrieval") := by
        simp [List.filter_cons, hskip]
      by_cases h2 : (r.event_type == "prompt") = true
      · rw [if_pos h2] at h
        cases hd : r.data with
        | promptD e =>
          rw [hd] at h
          rcases ih _ _ h with ⟨hfe, hout⟩ | ⟨r2, e2, hlast, hdata, hout⟩
          · exact Or.inl ⟨by rw [hf]; exact hfe, hout⟩
          · exact Or.inr ⟨r2, e2, by rw [hf]; exact hlast, hdata, hout⟩
        | retrievalD e =>
          rw [hd] at h
          exact Except.noConfusion h
        | generationD e =>
          rw [hd] at h
          exact Except.noConfusion h
      · rw [if_neg h2] at h
        by_cases h3 : (r.event_type == "generation") = true
        · rw [if_pos h3] at h
          cases hd : r.data with
          | generationD e =>
            rw [hd] at h
            rcases ih _ _ h with ⟨hfe, hout⟩ | ⟨r2, e2, hlast, hdata, hout⟩
            · exact Or.inl ⟨by rw [hf]; exact hfe, hout⟩
            · exact Or.inr ⟨r2, e2, by rw [hf]; exact hlast, hdata, hout⟩
          | retrievalD e =>
            rw [hd] at h
            exact Except.noConfusion h
          | promptD e =>
            rw [hd] at h
            exact Except.noConfusion h
        · rw [if_neg h3] at h
          rcases ih _ _ h with ⟨hfe, hout⟩ | ⟨r2, e2, hlast, hdata, hout⟩
          · exact Or.inl ⟨by rw [hf]; exact hfe, hout⟩
          · exact Or.inr ⟨r2, e2, by rw [hf]; exact hlast, hdata, hout⟩

/-- The `get_events` loop and the prompt slot (see
`fillSlots_generation_char`). -/
lemma fillSlots_prompt_char (l : List StoredEventR) :
    ∀ acc out : EventSlots, fillSlots l acc = .ok out →
      (l.filter (fun r => r.event_type == "prompt") = [] ∧
        out.prompt = acc.prompt) ∨
      (∃ r e, (l.filter (fun r => r.event_type == "prompt")).getLast? = some r ∧
        r.data = .promptD e ∧ out.prompt = some e) := by
  induction l with
  | nil =>
    intro acc out h
    simp only [fillSlots] at h
    rw [Except.ok.injEq] at h
    subst h
    exact Or.inl ⟨rfl, rfl⟩
  | cons r rest ih =>
    intro acc out h
    simp only [fillSlots] at h
    by_cases h1 : (r.event_type == "retrieval") = true
    · rw [if_pos h1] at h
      have hskip : (r.event_type == "prompt") = false := by
        have ht : r.event_type = "retrieval" := by simpa using h1
        simp [ht]
      have hf : (r :: rest).filter (fun r => r.event_type == "prompt") =
          rest.filter (fun r => r.event_type == "prompt") := by
        simp [List.filter_cons, hskip]
      cases hd : r.data with
      | retrievalD e =>
        rw [hd] at h
        rcases ih _ _ h with ⟨hfe, hout⟩ | ⟨r2, e2, hlast, hdata, hout⟩
        · exact Or.inl ⟨by rw [hf]; exact hfe, hout⟩
        · exact Or.inr ⟨r2, e2, by rw [hf]; exact hlast, hdata, hout⟩
      | promptD e =>
        rw [hd] at h
        exact Except.noConfusion h
      | generationD e =>
        rw [hd] at h
        exact Except.noConfusion h
    · rw [if_neg h1] at h
      by_cases h2 : (r.event_type == "prompt") = true
      · rw [if_pos h2] at h
        have hf : (r :: rest).filter (fun r => r.event_type == "prompt") =
            r :: rest.filter (fun r => r.event_type == "prompt") := by
          simp [List.filter_cons, h2]
        cases hd : r.data with
        | promptD e =>
          rw [hd] at h
          rcases ih _ _ h with ⟨hfe, hout⟩ | ⟨r2, e2, hlast, hdata, hout⟩
          · refine Or.inr ⟨r, e, ?_, hd, hout⟩
            rw [hf, hfe]
            rfl
          · refine Or.inr ⟨r2, e2, ?_, hdata, hout⟩
            rw [hf]
            cases hrf : rest.filter (fun r => r.event_type == "prompt") with
            | nil =>
              rw [hrf] at hlast
              cases hlast
            | cons a as =>
              rw [hrf] at hlast
              rw [List.getLast?_cons_cons]
              exact hlast
        | retrievalD e =>
          rw [hd] at h
          exact Except.noConfusion h
        | generationD e =>
          rw [hd] at h
          exact Except.noConfusion h
      · rw [if_neg h2] at h
        have hskip : (r.event_type == "prompt") = false := by simpa using h2
        have hf : (r :: rest).filter (fun r => r.event_type == "prompt") =
            rest.filter (fun r => r.event_type == "prompt") := by
          simp [List.filter_cons, hskip]
        by_cases h3 : (r.event_type == "generation") = true
        · rw [if_pos h3] at h
          cases hd : r.data with
          | generationD e =>
            rw [hd] at h
            rcases ih _ _ h with ⟨hfe, hout⟩ | ⟨r2, e2, hlast, hdata, hout⟩
            · exact Or.inl ⟨by rw [hf]; exact hfe, hout⟩
            · exact Or.inr ⟨r2, e2, by rw [hf]; exact hlast, hdata, hout⟩
          | retrievalD e =>
            rw [hd] at h
            exact Except.noConfusion h
          | promptD e =>
            rw [hd] at h
            exact Except.noConfusion h
        · rw [if_neg h3] at h
          rcases ih _ _ h with ⟨hfe, hout⟩ | ⟨r2, e2, hlast, hdata, hout⟩
          · exact Or.inl ⟨by rw [hf]; exact hfe, hout⟩
          · exact Or.inr ⟨r2, e2, by rw [hf]; exact hlast, hdata, hout⟩

/-- From a slot characterization over the sorted row list to the claim's
reading: a filled slot holds a stored row of the right type whose
timestamp bounds every same-type row of the session; an empty slot means
no such row is stored. -/
lemma slot_latest_glue (db : DB) (sid tyName : String) {β : Type}
    (sl : Option β) (mk : β → EvData)
    (hchar :
      ((sortByTimestamp (db.events.filter (fun r => r.session_id == sid))).filter
          (fun r => r.event_type == tyName) = [] ∧ sl = none) ∨
      (∃ r e, ((sortByTimestamp (db.events.filter (fun r => r.session_id == sid))).filter
          (fun r => r.event_type == tyName)).getLast? = some r ∧
        r.data = mk e ∧ sl = some e)) :
    (∀ e, sl = some e → ∃ r ∈ db.events, r.session_id = sid ∧
      r.event_type = tyName ∧ r.data = mk e ∧
      ∀ q ∈ db.events, q.session_id = sid → q.event_type = tyName →
        q.timestamp ≤ r.timestamp)
    ∧ (sl = none → ∀ r ∈ db.events, r.session_id = sid →
        r.event_type ≠ tyName) := by
  have hperm : List.Perm
      (sortByTimestamp (db.events.filter (fun r => r.session_id == sid)))
      (db.events.filter (fun r => r.session_id == sid)) :=
    List.perm_insertionSort tsLE _
  have hsort : (sortByTimestamp (db.events.filter
      (fun r => r.session_id == sid))).Sorted tsLE :=
    List.sorted_insertionSort tsLE _
  constructor
  · intro e he
    rcases hchar with ⟨hfe, hnone⟩ | ⟨r, e2, hlast, hdata, hsome⟩
    · rw [he] at hnone
      cases hnone
    · rw [he, Option.some.injEq] at hsome
      subst hsome
      have hrf := mem_of_getLast?' hlast
      have hrl := List.mem_of_mem_filter hrf
      have hrty : (r.event_type == tyName) = true := (List.mem_filter.mp hrf).2
      obtain ⟨hrdb, hrs⟩ := List.mem_filter.mp (hperm.mem_iff.mp hrl)
      refine ⟨r, hrdb, by simpa using hrs, by simpa using hrty, hdata, ?_⟩
      intro q hq hqs hqt
      have hql : q ∈ sortByTimestamp (db.events.filter
          (fun r => r.session_id == sid)) :=
        hperm.mem_iff.mpr (List.mem_filter.mpr ⟨hq, by simpa using hqs⟩)
      have hqf : q ∈ (sortByTimestamp (db.events.filter
          (fun r => r.session_id == sid))).filter
          (fun r => r.event_type == tyName) :=
        List.mem_filter.mpr ⟨hql, by simpa using hqt⟩
      have hsf : ((sortByTimestamp (db.events.filter
          (fun r => r.session_id == sid))).filter
          (fun r => r.event_type == tyName)).Sorted tsLE :=
        List.Pairwise.filter _ hsort
      exact sorted_getLast?_le _ hsf r hlast q hqf
  · intro hnone q hq hqs hqt
    rcases hchar with ⟨hfe, _⟩ | ⟨r, e2, hlast, hdata, hsome⟩
    · have hql : q ∈ sortByTimestamp (db.events.filter
          (fun r => r.session_id == sid)) :=
        hperm.mem_iff.mpr (List.mem_filter.mpr ⟨hq, by simpa using hqs⟩)
      have hqf : q ∈ (sortByTimestamp (db.events.filter
          (fun r => r.session_id == sid))).filter
          (fun r => r.event_type == tyName) :=
        List.mem_filter.mpr ⟨hql, by simpa using hqt⟩
      rw [hfe] at hqf
      cases hqf
    · rw [hnone] at hsome
      cases hsome

/-- C8: whatever multiset of rows is stored — including several rows of
the same type for one session — `get_events` yields the fixed three-slot
structure (at most one event per type by construction), and each filled
slot deterministically holds a stored row of its type whose timestamp is
maximal among the session's rows of that type (the latest-by-timestamp
entry); an empty slot means no row of that type is stored. -/
theorem c8_get_events_latest_per_type (db : DB) (sid : String)
    (slots : EventSlots) (h : get_events db sid = .ok slots) :
    ((∀ e, slots.retrieval = some e → ∃ r ∈ db.events, r.session_id = sid ∧
        r.event_type = "retrieval" ∧ r.data = .retrievalD e ∧
        ∀ q ∈ db.events, q.session_id = sid → q.event_type = "retrieval" →
          q.timestamp ≤ r.timestamp)
      ∧ (slots.retrieval = none → ∀ r ∈ db.events, r.session_id = sid →
          r.event_type ≠ "retrieval"))
    ∧ ((∀ e, slots.prompt = some e → ∃ r ∈ db.events, r.session_id = sid ∧
        r.event_type = "prompt" ∧ r.data = .promptD e ∧
        ∀ q ∈ db.events, q.session_id = sid → q.event_type = "prompt" →
          q.timestamp ≤ r.timestamp)
      ∧ (slots.prompt = none → ∀ r ∈ db.events, r.session_id = sid →
          r.event_type ≠ "prompt"))
    ∧ ((∀ e, slots.generation = some e → ∃ r ∈ db.events, r.session_id = sid ∧
        r.event_type = "generation" ∧ r.data = .generationD e ∧
        ∀ q ∈ db.events, q.session_id = sid → q.event_type = "generation" →
          q.timestamp ≤ r.timestamp)
      ∧ (slots.generation = none → ∀ r ∈ db.events, r.session_id = sid →
          r.event_type ≠ "generation")) := by
  have h' : fillSlots (sortByTimestamp (db.events.filter
      (fun r => r.session_id == sid))) ⟨none, none, none⟩ = .ok slots := h
  exact ⟨slot_latest_glue db sid "retrieval" slots.retrieval EvData.retrievalD
      (fillSlots_retrieval_char _ _ _ h'),
    slot_latest_glue db sid "prompt" slots.prompt EvData.promptD
      (fillSlots_prompt_char _ _ _ h'),
    slot_latest_glue db sid "generation" slots.generation EvData.generationD
      (fillSlots_generation_char _ _ _ h')⟩

/-- C8 witness: with two stored generation events (timestamps 1 and 5)
for session `"s8"`, the surviving slot entry is the timestamp-5 one, and
it bounds every generation row's timestamp. -/
theorem c8_get_events_latest_per_type_witness :
    ∃ r ∈ c8wdb.events, r.session_id = "s8" ∧ r.event_type = "generation" ∧
      r.data = .generationD w8g2 ∧
      ∀ q ∈ c8wdb.events, q.session_id = "s8" → q.event_type = "generation" →
        q.timestamp ≤ r.timestamp :=
  (c8_get_events_latest_per_type c8wdb "s8" ⟨none, none, some w8g2⟩ rfl).2.2.1
    w8g2 rfl

end RagTrace
